import Mathlib

/-
Verification development for the QualScore repository
(scripts/template_mzML_reader.py and scripts/template_pepXMLreader.py).

Shallow embedding conventions:
- Python exceptions and the `exit()` calls in the PSM loop are modelled with
  `Except PyErr`; a dictionary access on a possibly-absent key is an `Option`
  field read through `getKey` (raising `keyError` on `none`), and indexing
  `[0]` of a possibly-empty list goes through `getIndex0` (raising
  `indexError` on `[]`).
- Numeric values carried opaquely by the scripts (probabilities, m/z values,
  elapsed wall time) are modelled as rationals; the scripts never perform any
  arithmetic on them other than the final `count / elapsed` division, which
  is embedded with Python's raise-on-zero-divisor behaviour.
- Strings are Lean `String`s (lists of characters).
-/

/-- Failure modes of the Python code: `keyError`/`indexError`/`valueError`
are the interpreter exceptions; `nameFormat` and `chargeMismatch` model the
two `print(f"ERROR: ...")` + `exit()` paths of `PepXmlReader.read_psms`;
`zeroDivision` models `ZeroDivisionError` from `/`. -/
inductive PyErr where
  | keyError
  | indexError
  | valueError
  | nameFormat
  | chargeMismatch
  | zeroDivision
deriving DecidableEq

/-- Dictionary access `d['key']` on a key that may be absent: the `Option`
field holds the value, and an absent key raises `KeyError`. -/
def getKey {α : Type} : Option α → Except PyErr α
  | some a => .ok a
  | none => .error .keyError

/-- List indexing `l[0]`: raises `IndexError` on an empty list. -/
def getIndex0 {α : Type} : List α → Except PyErr α
  | [] => .error .indexError
  | a :: _ => .ok a

deriving instance DecidableEq for Except

/-
Embedding of `re.match(r"(.+)\.(\d+)\.(\d+)\.(\d+)$", spectrum_name)`
(template_pepXMLreader.py line 84).

Python `re` semantics captured here:
- `re.match` anchors the pattern at the start of the string;
- `$` (without MULTILINE) matches at the end of the string, or just before a
  single newline at the end of the string, so a name with one trailing
  newline is still accepted and the groups never contain that newline;
- `.` matches every character except a newline;
- `\d+` is a nonempty run of decimal digit characters (modelled with the
  ASCII digit predicate; none of the verified properties involve non-ASCII
  digits);
- the separating dots of the pattern are literal, so the three numeric
  groups are exactly the last three dot-delimited fields of the (possibly
  newline-stripped) string, and the greedy `(.+)` is everything before them.
The matcher is written over the REVERSED character list: it repeatedly
consumes a nonempty digit run followed by a literal dot, three times, and
what remains (reversed group 1) must be nonempty and newline-free.
-/

/-- Longest prefix of decimal digits, together with the remaining suffix. -/
def takeDigits : List Char → List Char × List Char
  | [] => ([], [])
  | c :: cs =>
    if c.isDigit then (c :: (takeDigits cs).1, (takeDigits cs).2)
    else ([], c :: cs)

/-- One step of the reversed-pattern match: a nonempty digit run, then a
literal dot. -/
def digitsDot (rcs : List Char) : Option (List Char × List Char) :=
  if (takeDigits rcs).1 = [] then none
  else
    match (takeDigits rcs).2 with
    | '.' :: rest => some ((takeDigits rcs).1, rest)
    | _ => none

/-- Positions where `$` can match: the end of the string, or just before a
single trailing newline.  Equivalently, the matched span of the string is
the string with one trailing newline removed, when present. -/
def stripNl (cs : List Char) : List Char :=
  if cs.getLast? = some '\n' then cs.dropLast else cs

/-- Character-level embedding of the spectrum-name pattern match; returns
the four groups `(run, scan, index, charge)` on success. -/
def matchSpectrumName (cs : List Char) :
    Option (List Char × List Char × List Char × List Char) :=
  match digitsDot (stripNl cs).reverse with
  | none => none
  | some (chr, r1) =>
    match digitsDot r1 with
    | none => none
    | some (idxr, r2) =>
      match digitsDot r2 with
      | none => none
      | some (scanr, r3) =>
        if r3 = [] then none
        else if r3.any (· = '\n') then none
        else some (r3.reverse, scanr.reverse, idxr.reverse, chr.reverse)

/-- String-level decomposition of a spectrum name into
`(msrun_name, scan_number, index, charge)` — the four `match.group` values
of template_pepXMLreader.py lines 84-88. -/
def decompose (s : String) : Option (String × String × String × String) :=
  (matchSpectrumName s.data).map fun x =>
    (⟨x.1⟩, ⟨x.2.1⟩, ⟨x.2.2.1⟩, ⟨x.2.2.2⟩)

/-- Python `int()` applied to a string of decimal digits
(e.g. `int("00123") = 123`); only ever applied to matched digit groups. -/
def natOfDigits (s : String) : Nat :=
  s.data.foldl (fun n c => 10 * n + (c.toNat - '0'.toNat)) 0

/-
Data model of the pepXML reader (template_pepXMLreader.py).

A pyteomics PSM record exposes `psm['assumed_charge']` (an integer),
`psm['spectrum']` (a string) and `psm['search_hit']` (a list); the reader
only ever touches `search_hit[0]`, reading its `peptide` string and its
`analysis_result` list.  Each entry of that list carries an `analysis` tag
and, under the method-specific sub-dictionary
(`peptideprophet_result` / `interprophet_result`), a `probability`; the
optional fields model the presence of those sub-paths (an absent path with a
matching tag is a `KeyError`, exactly as in Python).
-/

/-- One entry of `psm['search_hit'][0]['analysis_result']` (lines 98-102). -/
structure AnalysisResult where
  analysis : String
  peptideprophet_result : Option ℚ
  interprophet_result : Option ℚ
deriving DecidableEq

/-- One entry of `psm['search_hit']`. -/
structure SearchHit where
  peptide : String
  analysis_result : List AnalysisResult
deriving DecidableEq

/-- One PSM record yielded by `pepxml.read` (lines 70-81). -/
structure Psm where
  assumed_charge : Int
  spectrum : String
  search_hit : List SearchHit
deriving DecidableEq

/-- The analysis_result loop of lines 96-102: for every entry whose
`analysis` tag is `"peptideprophet"` (resp. `"interprophet"`) the
corresponding local variable is reassigned to that entry's probability, so
each later matching entry overwrites the earlier value.  The two `if`s are
independent, exactly as in the source. -/
def scanResults :
    List AnalysisResult → Option ℚ → Option ℚ →
    Except PyErr (Option ℚ × Option ℚ)
  | [], pp, ip => .ok (pp, ip)
  | ar :: rest, pp, ip =>
    match (if ar.analysis = "peptideprophet" then
             getKey ar.peptideprophet_result |>.map some
           else .ok pp : Except PyErr (Option ℚ)) with
    | .error e => .error e
    | .ok pp' =>
      match (if ar.analysis = "interprophet" then
               getKey ar.interprophet_result |>.map some
             else .ok ip : Except PyErr (Option ℚ)) with
      | .error e => .error e
      | .ok ip' => scanResults rest pp' ip'

/-- Processing of one PSM inside the `for psm in reader` loop
(lines 72-110): read `search_hit[0]` (IndexError on an empty list), match
the spectrum name against the fixed pattern (on failure the script prints an
error and calls `exit()` — modelled as `nameFormat`), compare
`int(charge)` with `int(match.group(4))` (on mismatch: `chargeMismatch`),
then walk the analysis results; since `keep` is always `True`, the row
`[scan_number, peptideprophet_probability]` is appended unconditionally,
with `scan_number` kept as the matched digit STRING `match.group(2)`. -/
def processPsm (psm : Psm) : Except PyErr (String × Option ℚ) :=
  match psm.search_hit with
  | [] => .error .indexError
  | sh :: _ =>
    match decompose psm.spectrum with
    | none => .error .nameFormat
    | some (_msrun, scan, _idx, ch) =>
      if psm.assumed_charge ≠ (natOfDigits ch : Int) then .error .chargeMismatch
      else
        match scanResults sh.analysis_result none none with
        | .error e => .error e
        | .ok (pp, _ip) => .ok (scan, pp)

/-- The whole `for psm in reader` loop, accumulating the `rows` list in
order; the first failing PSM aborts the run (`exit()` stops the process). -/
def read_psms_aux :
    List Psm → List (String × Option ℚ) →
    Except PyErr (List (String × Option ℚ))
  | [], rows => .ok rows
  | psm :: rest, rows =>
    match processPsm psm with
    | .error e => .error e
    | .ok row => read_psms_aux rest (rows ++ [row])

/-- The fixed output schema of lines 60-63. -/
def column_name_list : List String := ["scan_number", "probability"]

/-- PepXmlReader.read_psms, observed through the table it writes: on normal
completion the header and the buffered rows are handed to `to_csv`
(lines 140-147); when any PSM triggers `exit()` the function never reaches
that point, so no output file is produced (`none`) and the buffered rows are
discarded. -/
def read_psms (psms : List Psm) :
    Option (List String × List (String × Option ℚ)) :=
  match read_psms_aux psms [] with
  | .ok rows => some (column_name_list, rows)
  | .error _ => none

/-
Data model of the mzML reader (template_mzML_reader.py).

A pyteomics spectrum record is a nested dictionary; `read_spectra` touches
`spectrum['ms level']`, tests `'m/z array' in spectrum`, and — for level-2
spectra with an m/z array — unconditionally indexes
`spectrum['precursorList']['precursor'][0]['selectedIonList']['selectedIon'][0]`
for `'selected ion m/z'` and (inside a bare try/except) `'charge state'`,
then reads `spectrum['m/z array']` and `spectrum['intensity array']`.
Every dictionary key on that path is an `Option` field and every `[0]` is a
`getIndex0`, so an absent piece raises exactly where Python would.
-/

/-- Value found under `'charge state'`: either convertible by `int()` or a
value on which `int()` raises (e.g. a non-numeric string). -/
inductive ChargeField where
  | num (n : Int)
  | nonNumeric
deriving DecidableEq

/-- One entry of `...['selectedIonList']['selectedIon']`. -/
structure SelectedIon where
  selected_ion_mz : Option ℚ
  charge_state : Option ChargeField
deriving DecidableEq

/-- The dictionary under `...['selectedIonList']`. -/
structure SelIonListDict where
  selectedIon : Option (List SelectedIon)
deriving DecidableEq

/-- One entry of `spectrum['precursorList']['precursor']`. -/
structure Precursor where
  selectedIonList : Option SelIonListDict
deriving DecidableEq

/-- The dictionary under `spectrum['precursorList']`. -/
structure PrecListDict where
  precursor : Option (List Precursor)
deriving DecidableEq

/-- One spectrum record yielded by `mzml.read` (lines 66-94). -/
structure Spectrum where
  ms_level : Nat
  precursorList : Option PrecListDict
  mz_array : Option (List ℚ)
  intensity_array : Option (List ℚ)
deriving DecidableEq

/-- The nested index chain of line 79, up to `['selectedIon'][0]`. -/
def firstSelectedIon (sp : Spectrum) : Except PyErr SelectedIon := do
  let pl ← getKey sp.precursorList
  let prs ← getKey pl.precursor
  let pr ← getIndex0 prs
  let sil ← getKey pr.selectedIonList
  let sis ← getKey sil.selectedIon
  getIndex0 sis

/-- Charge as recorded by the reader: an integer, or the `'unknown'`
string sentinel. -/
inductive ChargeOut where
  | known (n : Int)
  | unknown
deriving DecidableEq

/-- The try/except of lines 81-84 around `int(...['charge state'])`: an
absent key (KeyError) and a non-numeric value (ValueError) both fall into
the bare `except`, yielding the `'unknown'` sentinel. -/
def charge_from_field : Option ChargeField → ChargeOut
  | some (.num n) => .known n
  | _ => .unknown

/-- What lines 78-94 compute for one level-2 spectrum: precursor m/z,
charge, and the two peak arrays (`peaklist`). -/
structure Ms2Info where
  precursor_mz : ℚ
  charge_state : ChargeOut
  mz_array : List ℚ
  intensity_array : List ℚ
deriving DecidableEq

/-- The per-record examination of lines 78-94.  Outside the
`ms_level = 2 ∧ m/z-array-present` guard nothing is extracted (`none`).
Inside it, `'selected ion m/z'` is read unconditionally — any absent part
of the nested precursor path propagates as an exception — while the charge
read is wrapped in try/except; the zero-length-array check of lines 91-94
is a `pass` and is dropped. -/
def examine_ms2 (sp : Spectrum) : Except PyErr (Option Ms2Info) :=
  if sp.ms_level = 2 ∧ sp.mz_array.isSome then
    match firstSelectedIon sp with
    | .error e => .error e
    | .ok si =>
      match getKey si.selected_ion_mz with
      | .error e => .error e
      | .ok pmz =>
        match getKey sp.mz_array, getKey sp.intensity_array with
        | .error e, _ => .error e
        | .ok _, .error e => .error e
        | .ok mzs, .ok ia =>
          .ok (some ⟨pmz, charge_from_field si.charge_state, mzs, ia⟩)
  else .ok none

/-- The `stats` dictionary of lines 44-49: a total counter and one counter
per acquisition level, all starting at 0. -/
structure Stats where
  n_spectra : Nat
  n_ms0_spectra : Nat
  n_ms1_spectra : Nat
  n_ms2_spectra : Nat
deriving DecidableEq

/-- Initial `stats` value. -/
def initStats : Stats := ⟨0, 0, 0, 0⟩

/-- One iteration of the `for spectrum in reader` loop: examine the record
(lines 78-94, exceptions propagate and abort the file), then line 97
increments `n_spectra` — and only `n_spectra`; no per-level counter is
touched anywhere in the loop. -/
def stepSpectrum (st : Stats) (sp : Spectrum) : Except PyErr Stats :=
  match examine_ms2 sp with
  | .error e => .error e
  | .ok _ => .ok { st with n_spectra := st.n_spectra + 1 }

/-- The whole spectrum loop of MzMLReader.read_spectra. -/
def read_spectra_aux : List Spectrum → Stats → Except PyErr Stats
  | [], st => .ok st
  | sp :: rest, st =>
    match stepSpectrum st sp with
    | .error e => .error e
    | .ok st' => read_spectra_aux rest st'

/-- MzMLReader.read_spectra, observed through its final `stats`. -/
def read_spectra (sps : List Spectrum) : Except PyErr Stats :=
  read_spectra_aux sps initStats

/-- Python division `n/(t1-t0)` as written on line 109 of the mzML reader
and line 137 of the pepXML reader: no guard of any kind — a zero elapsed
time raises `ZeroDivisionError`, anything else divides. -/
def throughputPy (n : Nat) (elapsed : ℚ) : Except PyErr ℚ :=
  if elapsed = 0 then .error .zeroDivision else .ok ((n : ℚ) / elapsed)

/-- Python `int()` on the elapsed time (truncation toward zero), as in
`int(t1-t0)` of line 109. -/
def ratTrunc (q : ℚ) : Int := if 0 ≤ q then q.floor else q.ceil

/-- The final summary line 109 of MzMLReader.read_spectra: the spectrum
count, the truncated elapsed seconds, and the records-per-second rate
`stats['n_spectra']/(t1-t0)`.  The per-level counters do not appear in it. -/
def final_summary (st : Stats) (elapsed : ℚ) : Except PyErr (Nat × Int × ℚ) :=
  match throughputPy st.n_spectra elapsed with
  | .error e => .error e
  | .ok r => .ok (st.n_spectra, ratTrunc elapsed, r)

/-- One command-line input of the mzML reader's `main()`: its path, whether
`os.path.isfile` holds for it, and the spectra it contains. -/
structure InputFile where
  filename : String
  file_ok : Bool
  spectra : List Spectrum
deriving DecidableEq

/-- The second loop of `main()` (lines 133-137): process the files in
order; an uncaught exception in one file aborts the batch. -/
def process_files : List InputFile → Except PyErr (List Stats)
  | [] => .ok []
  | f :: rest =>
    match read_spectra f.spectra with
    | .error e => .error e
    | .ok st =>
      match process_files rest with
      | .error e => .error e
      | .ok sts => .ok (st :: sts)

/-- The mzML reader's `main()` (lines 126-137): the first loop checks
`os.path.isfile` for every input and, on the first failure, prints an error
and returns — before any file is opened (`none`); only when every path
passes does the second loop process the files. -/
def main_mzml (files : List InputFile) : Option (Except PyErr (List Stats)) :=
  if files.all (·.file_ok) then some (process_files files) else none

/-- The full index chain of line 79 including the final
`['selected ion m/z']` read. -/
def selected_ion_mz_of (sp : Spectrum) : Except PyErr ℚ :=
  match firstSelectedIon sp with
  | .error e => .error e
  | .ok si => getKey si.selected_ion_mz

/-- A fully-populated level-2 spectrum record: complete precursor path,
integer charge, non-empty peak arrays. -/
def ms2full : Spectrum :=
  ⟨2, some ⟨some [⟨some ⟨some [⟨some 500, some (.num 2)⟩]⟩⟩]⟩,
   some [100, 200], some [10, 20]⟩

theorem takeDigits_append (cs : List Char) :
    (takeDigits cs).1 ++ (takeDigits cs).2 = cs := by
  induction cs with
  | nil => rfl
  | cons c cs ih =>
    by_cases h : c.isDigit
    · simp [takeDigits, h, ih]
    · simp [takeDigits, h]

theorem digitsDot_eq {rcs ds rest : List Char}
    (h : digitsDot rcs = some (ds, rest)) : rcs = ds ++ '.' :: rest := by
  unfold digitsDot at h
  split at h
  · exact absurd h (by simp)
  · split at h
    · rename_i heq
      injection h with h
      injection h with h1 h2
      subst h1; subst h2
      have := takeDigits_append rcs
      rw [heq] at this
      exact this.symm
    · exact absurd h (by simp)

theorem matchSpectrumName_concat {cs rl al bl cl : List Char}
    (h : matchSpectrumName cs = some (rl, al, bl, cl)) :
    stripNl cs = rl ++ '.' :: (al ++ '.' :: (bl ++ '.' :: cl)) := by
  unfold matchSpectrumName at h
  split at h
  · exact absurd h (by simp)
  · rename_i chr r1 h1
    split at h
    · exact absurd h (by simp)
    · rename_i idxr r2 h2
      split at h
      · exact absurd h (by simp)
      · rename_i scanr r3 h3
        split at h
        · exact absurd h (by simp)
        · split at h
          · exact absurd h (by simp)
          · injection h with h
            injection h with e1 h
            injection h with e2 h
            injection h with e3 e4
            subst e1; subst e2; subst e3; subst e4
            have d1 := digitsDot_eq h1
            have d2 := digitsDot_eq h2
            have d3 := digitsDot_eq h3
            rw [d3] at d2
            rw [d2] at d1
            have e := congrArg List.reverse d1
            rw [List.reverse_reverse] at e
            rw [e]
            simp [List.reverse_append, List.reverse_cons, List.append_assoc]

theorem scanResults_append (xs ys : List AnalysisResult) (pp ip : Option ℚ) :
    scanResults (xs ++ ys) pp ip =
      match scanResults xs pp ip with
      | .error e => .error e
      | .ok (p, i) => scanResults ys p i := by
  induction xs generalizing pp ip with
  | nil => rfl
  | cons ar xs ih =>
    simp only [List.cons_append, scanResults]
    cases (if ar.analysis = "peptideprophet" then
             getKey ar.peptideprophet_result |>.map some
           else .ok pp : Except PyErr (Option ℚ)) with
    | error e => rfl
    | ok pp' =>
      cases (if ar.analysis = "interprophet" then
               getKey ar.interprophet_result |>.map some
             else .ok ip : Except PyErr (Option ℚ)) with
      | error e => rfl
      | ok ip' => exact ih pp' ip'

theorem scanResults_no_pp_preserve {rs : List AnalysisResult}
    (h : ∀ ar ∈ rs, ar.analysis ≠ "peptideprophet") :
    ∀ pp ip pp' ip', scanResults rs pp ip = .ok (pp', ip') → pp' = pp := by
  induction rs with
  | nil =>
    intro pp ip pp' ip' hok
    simp only [scanResults] at hok
    injection hok with hok
    exact (Prod.mk.injEq .. ▸ hok).1.symm
  | cons ar rs ih =>
    intro pp ip pp' ip' hok
    have hne : ar.analysis ≠ "peptideprophet" := h ar (List.mem_cons_self ar rs)
    simp only [scanResults, if_neg hne] at hok
    cases hip : (if ar.analysis = "interprophet" then
                   getKey ar.interprophet_result |>.map some
                 else .ok ip : Except PyErr (Option ℚ)) with
    | error e => rw [hip] at hok; exact absurd hok (by simp)
    | ok ip2 =>
      rw [hip] at hok
      exact ih (fun b hb => h b (List.mem_cons_of_mem ar hb)) pp ip2 pp' ip' hok

theorem scanResults_no_pp_ok {rs : List AnalysisResult}
    (hno : ∀ ar ∈ rs, ar.analysis ≠ "peptideprophet")
    (hkey : ∀ ar ∈ rs, ar.analysis = "interprophet" →
      ar.interprophet_result.isSome) :
    ∀ pp ip, ∃ ip', scanResults rs pp ip = .ok (pp, ip') := by
  induction rs with
  | nil => intro pp ip; exact ⟨ip, rfl⟩
  | cons ar rs ih =>
    intro pp ip
    have hne : ar.analysis ≠ "peptideprophet" := hno ar (List.mem_cons_self ar rs)
    have ihr := ih (fun b hb => hno b (List.mem_cons_of_mem ar hb))
      (fun b hb => hkey b (List.mem_cons_of_mem ar hb))
    by_cases hi : ar.analysis = "interprophet"
    · have hs := hkey ar (List.mem_cons_self ar rs) hi
      obtain ⟨v, hv⟩ := Option.isSome_iff_exists.mp hs
      obtain ⟨ip', hip'⟩ := ihr pp (some v)
      exact ⟨ip', by simp only [scanResults, if_neg hne, if_pos hi, hv, getKey,
        Except.map]; exact hip'⟩
    · obtain ⟨ip', hip'⟩ := ihr pp ip
      exact ⟨ip', by simp only [scanResults, if_neg hne, if_neg hi]; exact hip'⟩

/-- Claim C1, counterexample: a PSM with two "peptideprophet" entries
(probabilities 3/10 then 7/10) yields an output row whose probability is
7/10, the one from the LAST entry — not 3/10, the first — refuting the
claimed first-wins policy. -/
theorem C1_first_wins_refuted :
    processPsm ⟨2, "run01.00123.00123.2",
      [⟨"PEPTIDE", [⟨"peptideprophet", some (3/10), none⟩,
                    ⟨"peptideprophet", some (7/10), none⟩]⟩]⟩ =
      .ok ("00123", some (7/10)) ∧ (7 / 10 : ℚ) ≠ 3 / 10 := by
  constructor
  · rfl
  · norm_num

/-- Claim C1 (amended): when the analysis_result sequence of a PSM contains
several "peptideprophet" entries, the probability retained and used in the
emitted OutputRow is the one from the LAST such entry; earlier occurrences
are overwritten by later ones. -/
theorem C1_last_occurrence_wins
    (ac : Int) (spname : String) (sh : SearchHit) (tl : List SearchHit)
    (rs1 rs2 : List AnalysisResult) (ar : AnalysisResult) (p : ℚ)
    (scan : String) (pp : Option ℚ)
    (hrs : sh.analysis_result = rs1 ++ ar :: rs2)
    (htag : ar.analysis = "peptideprophet")
    (hres : ar.peptideprophet_result = some p)
    (hrs2 : ∀ b ∈ rs2, b.analysis ≠ "peptideprophet")
    (h : processPsm ⟨ac, spname, sh :: tl⟩ = .ok (scan, pp)) :
    pp = some p := by
  simp only [processPsm] at h
  split at h
  · exact absurd h (by simp)
  · split at h
    · exact absurd h (by simp)
    · split at h
      · exact absurd h (by simp)
      · rename_i out pp0 ip0 hscan
        injection h with h
        have hpp : pp = pp0 := ((Prod.mk.injEq .. ▸ h).2).symm
        rw [hrs, scanResults_append] at hscan
        split at hscan
        · exact absurd hscan (by simp)
        · rename_i out1 p1 i1 heq1
          simp only [scanResults, htag, hres, getKey, Except.map] at hscan
          rw [if_true] at hscan
          rw [if_neg (show ¬("peptideprophet" : String) = "interprophet" by decide)] at hscan
          have := scanResults_no_pp_preserve hrs2 (some p) i1 pp0 ip0 hscan
          rw [hpp, this]

/-- Claim C1, witness for the amended theorem at a concrete input: the PSM
of the counterexample, with rs1 holding the first entry and ar the second. -/
theorem C1_last_occurrence_wins_witness :
    (some (7/10) : Option ℚ) = some (7/10) :=
  C1_last_occurrence_wins 2 "run01.00123.00123.2"
    ⟨"PEPTIDE", [⟨"peptideprophet", some (3/10), none⟩,
                 ⟨"peptideprophet", some (7/10), none⟩]⟩ []
    [⟨"peptideprophet", some (3/10), none⟩]
    [] ⟨"peptideprophet", some (7/10), none⟩ (7/10)
    "00123" (some (7/10))
    rfl rfl rfl (by simp) rfl

theorem read_psms_aux_pre (pre : List Psm)
    (hpre : ∀ p ∈ pre, ∃ row, processPsm p = .ok row) :
    ∀ rest rows, ∃ rows',
      read_psms_aux (pre ++ rest) rows = read_psms_aux rest rows' := by
  induction pre with
  | nil => intro rest rows; exact ⟨rows, rfl⟩
  | cons q pre ih =>
    intro rest rows
    obtain ⟨row, hrow⟩ := hpre q (List.mem_cons_self q pre)
    obtain ⟨rows', hrows'⟩ :=
      ih (fun p hp => hpre p (List.mem_cons_of_mem q hp)) rest (rows ++ [row])
    exact ⟨rows', by simp only [List.cons_append, read_psms_aux, hrow]; exact hrows'⟩

/-- Claim C4: in a run whose PSM stream contains a PSM whose name-decoded
charge differs from its assumed_charge — every earlier PSM processing
normally — the run terminates at that PSM with the charge-mismatch error,
and no output table is produced at all: the rows buffered for the earlier
PSMs are discarded, nothing is flushed. -/
theorem C4_charge_mismatch_aborts
    (pre post : List Psm) (ac : Int) (spname : String)
    (sh : SearchHit) (tl : List SearchHit)
    (r scan idx ch : String)
    (hpre : ∀ p ∈ pre, ∃ row, processPsm p = .ok row)
    (hdec : decompose spname = some (r, scan, idx, ch))
    (hne : ac ≠ (natOfDigits ch : Int)) :
    read_psms_aux (pre ++ ⟨ac, spname, sh :: tl⟩ :: post) [] =
      .error .chargeMismatch ∧
    read_psms (pre ++ ⟨ac, spname, sh :: tl⟩ :: post) = none := by
  have hbad : processPsm ⟨ac, spname, sh :: tl⟩ = .error .chargeMismatch := by
    simp only [processPsm, hdec]
    rw [if_pos hne]
  obtain ⟨rows', haux⟩ := read_psms_aux_pre pre hpre (⟨ac, spname, sh :: tl⟩ :: post) []
  have habort : read_psms_aux (pre ++ ⟨ac, spname, sh :: tl⟩ :: post) [] =
      .error .chargeMismatch := by
    rw [haux]; simp only [read_psms_aux, hbad]
  exact ⟨habort, by simp only [read_psms, habort]⟩

/-- Claim C4, witness: a two-PSM run whose first PSM is well-formed (its row
would be ("00123", 9/10)) and whose second PSM encodes charge 3 in its name
but carries assumed_charge 2: the whole run errors with chargeMismatch and
read_psms yields no table. -/
theorem C4_charge_mismatch_aborts_witness :
    read_psms_aux
      [⟨2, "run01.00123.00123.2",
         [⟨"PEPTIDE", [⟨"peptideprophet", some (9/10), none⟩]⟩]⟩,
       ⟨2, "run01.00124.00124.3",
         [⟨"PEPTIDE", [⟨"peptideprophet", some (8/10), none⟩]⟩]⟩] [] =
      .error .chargeMismatch ∧
    read_psms
      [⟨2, "run01.00123.00123.2",
         [⟨"PEPTIDE", [⟨"peptideprophet", some (9/10), none⟩]⟩]⟩,
       ⟨2, "run01.00124.00124.3",
         [⟨"PEPTIDE", [⟨"peptideprophet", some (8/10), none⟩]⟩]⟩] = none :=
  C4_charge_mismatch_aborts
    [⟨2, "run01.00123.00123.2",
       [⟨"PEPTIDE", [⟨"peptideprophet", some (9/10), none⟩]⟩]⟩] []
    2 "run01.00124.00124.3"
    ⟨"PEPTIDE", [⟨"peptideprophet", some (8/10), none⟩]⟩ []
    "run01" "00124" "00124" "3"
    (fun p hp => by
      rw [List.mem_singleton] at hp
      subst hp
      exact ⟨("00123", some (9/10)), rfl⟩)
    rfl (by decide)

/-- Claim C10: a PSM that passes name decomposition and charge validation
but whose analysis_result sequence has no "peptideprophet" entry (every
tagged interprophet entry well-formed) still unconditionally produces a row,
and that row's probability field is None — it lands in the output table as
(scan, none). -/
theorem C10_no_peptideprophet_row_is_none
    (ac : Int) (spname : String) (sh : SearchHit) (tl : List SearchHit)
    (r scan idx ch : String)
    (hdec : decompose spname = some (r, scan, idx, ch))
    (hch : ac = (natOfDigits ch : Int))
    (hnopp : ∀ ar ∈ sh.analysis_result, ar.analysis ≠ "peptideprophet")
    (hkey : ∀ ar ∈ sh.analysis_result, ar.analysis = "interprophet" →
      ar.interprophet_result.isSome) :
    processPsm ⟨ac, spname, sh :: tl⟩ = .ok (scan, none) ∧
    read_psms [⟨ac, spname, sh :: tl⟩] =
      some (column_name_list, [(scan, none)]) := by
  obtain ⟨ip', hscan⟩ := scanResults_no_pp_ok hnopp hkey none none
  have hrow : processPsm ⟨ac, spname, sh :: tl⟩ = .ok (scan, none) := by
    simp only [processPsm, hdec]
    rw [if_neg (by simp [hch]), hscan]
  exact ⟨hrow, by simp only [read_psms, read_psms_aux, hrow]; rfl⟩

/-- Claim C10, witness: a PSM carrying only an "interprophet" result still
emits a row, with probability None. -/
theorem C10_no_peptideprophet_row_is_none_witness :
    processPsm ⟨2, "run01.00123.00123.2",
      [⟨"PEPTIDE", [⟨"interprophet", none, some (8/10)⟩]⟩]⟩ =
      .ok ("00123", none) ∧
    read_psms [⟨2, "run01.00123.00123.2",
      [⟨"PEPTIDE", [⟨"interprophet", none, some (8/10)⟩]⟩]⟩] =
      some (column_name_list, [("00123", none)]) :=
  C10_no_peptideprophet_row_is_none 2 "run01.00123.00123.2"
    ⟨"PEPTIDE", [⟨"interprophet", none, some (8/10)⟩]⟩ []
    "run01" "00123" "00123" "2"
    rfl (by decide) (by decide) (by decide)

/-- Claim C3, counterexample: for spectrum name "run01.00123.00123.2" with
assumed_charge 2, the emitted row's scan field is the matched digit STRING
"00123" — `scan_number = match.group(2)` is never converted to an integer —
so the row is ("00123", p), which serializes as 00123, and not the claimed
[123, p] (the decimal form of the integer 123 is the different string
"123"). -/
theorem C3_scan_number_stays_string :
    processPsm ⟨2, "run01.00123.00123.2",
      [⟨"PEPTIDE", [⟨"peptideprophet", some (9/10), none⟩]⟩]⟩ =
      .ok ("00123", some (9/10)) ∧ ("00123" : String) ≠ "123" := by
  exact ⟨rfl, by decide⟩

/-- Claim C3 (amended): the scenario name "run01.00123.00123.2" with
assumed_charge 2 decomposes into run "run01", scan string "00123" (whose
integer value is 123), index "00123" and charge string "2" (integer value 2,
equal to assumed_charge, so no mismatch is raised), and for any probability
p the row ("00123", some p) is emitted. -/
theorem C3_scenario_row (p : ℚ) :
    decompose "run01.00123.00123.2" =
      some ("run01", "00123", "00123", "2") ∧
    natOfDigits "00123" = 123 ∧ natOfDigits "2" = 2 ∧
    processPsm ⟨2, "run01.00123.00123.2",
      [⟨"PEPTIDE", [⟨"peptideprophet", some p, none⟩]⟩]⟩ =
      .ok ("00123", some p) := by
  refine ⟨by decide, by decide, by decide, ?_⟩
  simp only [processPsm,
    show decompose "run01.00123.00123.2" =
      some ("run01", "00123", "00123", "2") from by decide]
  rw [if_neg (by decide)]
  simp only [scanResults, getKey, Except.map]
  rw [if_true,
    if_neg (show ¬("peptideprophet" : String) = "interprophet" by decide)]

/-- Claim C5, counterexample: the pattern also accepts a spectrum name with
a single trailing newline (re.match's `$` matches just before it), and then
rejoining the four decomposed parts with literal dots reproduces only the
newline-stripped string, not the original: decomposing "a.1.1.2\n" yields
("a","1","1","2") whose rejoin "a.1.1.2" differs from the input. -/
theorem C5_roundtrip_refuted_on_trailing_newline :
    decompose "a.1.1.2\n" = some ("a", "1", "1", "2") ∧
    ("a" ++ "." ++ "1" ++ "." ++ "1" ++ "." ++ "2" : String) ≠ "a.1.1.2\n" := by
  exact ⟨by decide, by decide⟩

/-- Claim C5 (amended): for every spectrum-name string accepted by the
decomposition pattern that does not end in a newline, rejoining the four
decomposed parts as run.scan.index.charge with literal dots reproduces the
original string exactly.  (A string with one trailing newline is also
accepted, but its rejoin reproduces the string minus that newline.) -/
theorem C5_decompose_roundtrip (s r a b c : String)
    (h : decompose s = some (r, a, b, c))
    (hnl : s.data.getLast? ≠ some '\n') :
    r ++ "." ++ a ++ "." ++ b ++ "." ++ c = s := by
  unfold decompose at h
  cases hm : matchSpectrumName s.data with
  | none => rw [hm] at h; exact absurd h (by simp)
  | some q =>
    obtain ⟨rl, al, bl, cl⟩ := q
    rw [hm] at h
    simp only [Option.map_some'] at h
    injection h with h
    injection h with e1 h
    injection h with e2 h
    injection h with e3 e4
    have hcat := matchSpectrumName_concat hm
    rw [stripNl, if_neg hnl] at hcat
    apply String.ext
    rw [← e1, ← e2, ← e3, ← e4]
    simp only [String.data_append]
    rw [hcat]
    simp [List.append_assoc]

/-- Claim C5, witness for the amended round-trip at the scenario name. -/
theorem C5_decompose_roundtrip_witness :
    ("run01" ++ "." ++ "00123" ++ "." ++ "00123" ++ "." ++ "2" : String) =
      "run01.00123.00123.2" :=
  C5_decompose_roundtrip "run01.00123.00123.2" "run01" "00123" "00123" "2"
    rfl (by decide)

/-- Claim C6, counterexample: the final-summary computation has NO guard
against a (near-)zero elapsed time — at elapsed time 0 the division
`stats['n_spectra']/(t1-t0)` raises ZeroDivisionError instead of being
guarded, refuting the claim that the summary never divides by
(near-)zero. -/
theorem C6_no_division_guard :
    final_summary ⟨1200, 0, 0, 0⟩ 0 = .error .zeroDivision := by
  rfl

/-- Claim C6 (amended): the reported throughput is the bare division
count/elapsed with no guard of any kind (identically on line 109 of the
mzML reader and line 137 of the pepXML reader): a zero elapsed time raises
ZeroDivisionError, and any nonzero elapsed time — however small — performs
the division directly. -/
theorem C6_throughput_unguarded (st : Stats) (e : ℚ) :
    (e = 0 → final_summary st e = .error .zeroDivision) ∧
    (e ≠ 0 → final_summary st e =
      .ok (st.n_spectra, ratTrunc e, (st.n_spectra : ℚ) / e)) := by
  constructor
  · intro h
    simp [final_summary, throughputPy, h]
  · intro h
    simp [final_summary, throughputPy, h]

/-- Claim C6, witness: the unguarded division at elapsed 0 (error) and at
elapsed 2 (plain division). -/
theorem C6_throughput_unguarded_witness :
    final_summary ⟨5, 0, 0, 0⟩ 0 = .error .zeroDivision ∧
    final_summary ⟨5, 0, 0, 0⟩ 2 = .ok (5, ratTrunc 2, (5 : ℚ) / 2) :=
  ⟨(C6_throughput_unguarded ⟨5, 0, 0, 0⟩ 0).1 rfl,
   (C6_throughput_unguarded ⟨5, 0, 0, 0⟩ 2).2 (by norm_num)⟩

/-- Claim C8: the mzML reader's main() checks `os.path.isfile` for every
file of the batch before opening any of them; if any path is missing or not
a regular file, main() reports the error and returns with no file
processed — not even the ones that exist. -/
theorem C8_batch_checked_before_processing
    (files : List InputFile) (h : ∃ f ∈ files, f.file_ok = false) :
    main_mzml files = none := by
  unfold main_mzml
  rw [if_neg]
  intro hall
  obtain ⟨f, hf, hok⟩ := h
  have := List.all_eq_true.mp hall f hf
  rw [hok] at this
  exact Bool.false_ne_true this

/-- Claim C8, witness: a two-file batch whose second path is not a regular
file is rejected whole — the existing first file is not processed. -/
theorem C8_batch_checked_before_processing_witness :
    main_mzml [⟨"a.mzML", true, [ms2full]⟩, ⟨"b.mzML", false, []⟩] = none :=
  C8_batch_checked_before_processing _
    ⟨⟨"b.mzML", false, []⟩, by simp, rfl⟩

/-- Claim C7, counterexample: a level-2 spectrum with an m/z array but no
'precursorList' key makes the extraction step raise (KeyError) — the
extraction step is NOT exception-free for every level-2 record with a
present m/z array; only the charge read is guarded by try/except. -/
theorem C7_extraction_can_raise :
    examine_ms2 ⟨2, none, some [100], some [10]⟩ = .error .keyError := by
  rfl

/-- Claim C7 (amended): for every level-2 spectrum record whose m/z array is
present AND whose nested precursor/selected-ion path (including
'selected ion m/z') and intensity array are present, extraction never
raises, and an absent or non-numeric 'charge state' field yields the
"unknown" sentinel instead of an error. -/
theorem C7_charge_extraction_never_raises
    (sp : Spectrum) (si : SelectedIon) (pmz : ℚ) (mzs ia : List ℚ)
    (h2 : sp.ms_level = 2) (hmz : sp.mz_array = some mzs)
    (hsi : firstSelectedIon sp = .ok si)
    (hpmz : si.selected_ion_mz = some pmz)
    (hia : sp.intensity_array = some ia)
    (hcs : si.charge_state = none ∨ si.charge_state = some .nonNumeric) :
    examine_ms2 sp = .ok (some ⟨pmz, .unknown, mzs, ia⟩) := by
  have hcf : charge_from_field si.charge_state = .unknown := by
    rcases hcs with h | h <;> rw [h] <;> rfl
  unfold examine_ms2
  rw [if_pos ⟨h2, by rw [hmz]; rfl⟩]
  simp only [hsi, hpmz, hmz, hia, getKey, hcf]

/-- Claim C7, witness: full precursor path present but a non-numeric
'charge state' value — extraction succeeds and records "unknown". -/
theorem C7_charge_extraction_never_raises_witness :
    examine_ms2
      ⟨2, some ⟨some [⟨some ⟨some [⟨some 500, some .nonNumeric⟩]⟩⟩]⟩,
       some [100], some [10]⟩ =
      .ok (some ⟨500, .unknown, [100], [10]⟩) :=
  C7_charge_extraction_never_raises
    ⟨2, some ⟨some [⟨some ⟨some [⟨some 500, some .nonNumeric⟩]⟩⟩]⟩,
     some [100], some [10]⟩
    ⟨some 500, some .nonNumeric⟩ 500 [100] [10]
    rfl rfl rfl rfl rfl (Or.inr rfl)

/-- Claim C9: for a level-2 spectrum record with an m/z array present, the
full nested path precursorList → precursor[0] → selectedIonList →
selectedIon[0] → 'selected ion m/z' is a hard precondition — whenever any
part of it is absent (the line-79 chain raises), the exception propagates
out of the record examination, fails the record step, and aborts the
processing of the rest of the file, with no degradation to a sentinel. -/
theorem C9_precursor_path_is_hard_precondition
    (sp : Spectrum) (e : PyErr)
    (h2 : sp.ms_level = 2) (hmz : sp.mz_array.isSome)
    (hbroken : selected_ion_mz_of sp = .error e) :
    examine_ms2 sp = .error e ∧
    (∀ st, stepSpectrum st sp = .error e) ∧
    (∀ rest st, read_spectra_aux (sp :: rest) st = .error e) := by
  have hex : examine_ms2 sp = .error e := by
    unfold examine_ms2
    rw [if_pos ⟨h2, hmz⟩]
    cases hfsi : firstSelectedIon sp with
    | error e' =>
      have : e' = e := by
        simp only [selected_ion_mz_of, hfsi] at hbroken
        injection hbroken
      subst this
      simp only [hfsi]
    | ok si =>
      have hget : getKey si.selected_ion_mz = .error e := by
        simp only [selected_ion_mz_of, hfsi] at hbroken
        exact hbroken
      simp only [hfsi, hget]
  have hstep : ∀ st, stepSpectrum st sp = .error e := by
    intro st
    simp only [stepSpectrum, hex]
  exact ⟨hex, hstep, fun rest st => by simp only [read_spectra_aux, hstep st]⟩

/-- Claim C9, witness: a level-2 record with m/z array but missing
'precursorList' key raises KeyError, fails the step and aborts the file. -/
theorem C9_precursor_path_is_hard_precondition_witness :
    examine_ms2 ⟨2, none, some [200], some [20]⟩ = .error .keyError ∧
    stepSpectrum initStats ⟨2, none, some [200], some [20]⟩ =
      .error .keyError ∧
    read_spectra_aux [⟨2, none, some [200], some [20]⟩] initStats =
      .error .keyError :=
  ⟨(C9_precursor_path_is_hard_precondition ⟨2, none, some [200], some [20]⟩
      .keyError rfl rfl rfl).1,
   (C9_precursor_path_is_hard_precondition ⟨2, none, some [200], some [20]⟩
      .keyError rfl rfl rfl).2.1 initStats,
   (C9_precursor_path_is_hard_precondition ⟨2, none, some [200], some [20]⟩
      .keyError rfl rfl rfl).2.2 [] initStats⟩

theorem stepSpectrum_ms2full (st : Stats) :
    stepSpectrum st ms2full = .ok { st with n_spectra := st.n_spectra + 1 } := by
  rfl

theorem read_spectra_aux_replicate_ms2full (n : Nat) :
    ∀ st : Stats, read_spectra_aux (List.replicate n ms2full) st =
      .ok ⟨st.n_spectra + n, st.n_ms0_spectra, st.n_ms1_spectra,
           st.n_ms2_spectra⟩ := by
  induction n with
  | zero => intro st; simp [read_spectra_aux]
  | succ n ih =>
    intro st
    rw [List.replicate_succ]
    simp only [read_spectra_aux, stepSpectrum_ms2full, ih]
    congr 1
    simp
    omega

/-- Claim C2: evaluating the reader on a file of 1200 level-2 spectra (all
with complete precursor structure and non-empty arrays).  The loop
increments ONLY the total counter `n_spectra`: the per-level counters
declared in the `stats` dictionary are never incremented anywhere, so after
1200 level-2 spectra the final stats are n_spectra = 1200 and
n_ms2_spectra = 0 — not the claimed 1200 — and the summary line prints only
n_spectra. -/
theorem C2_per_level_counters_never_incremented :
    read_spectra (List.replicate 1200 ms2full) = .ok ⟨1200, 0, 0, 0⟩ := by
  rw [read_spectra, read_spectra_aux_replicate_ms2full 1200 initStats]
  rfl
